import Mathlib

/-!
Verification of the mechlib backend (image cataloguing with hybrid keyword +
semantic retrieval).  The definitions below are a shallow embedding of the
Python source under `src/backend/src`:

* `Metadata`, `Metadata.to_dict` embed `mechlib/metadata_fetcher.py`;
* `make_documents`, `s3_uris_to_metadata`, `metadata_to_imgs` embed
  `mechlib/img_processor.py` (`ImageProcessor`);
* `buildSemanticMap`, `keywordBoost`, `hybridPool`, `hybrid_search` embed
  `VectorStoreManager.hybrid_search` in `mechlib/vector_store.py`;
* `search_images`, `update_metadata`, `delete_image`, `updatePageContent`
  embed the corresponding handlers in `api/routers/image.py`.

Python floats are modelled as exact rationals (`ℚ`); external I/O (S3, the
database, the ExifTool subprocess) is modelled by passing each call's outcome
as an explicit argument and recording attempted writes as `Effect` values.
-/

namespace Mechlib

/-- A Python value as it occurs in the metadata dictionaries of this code
base: `None`, a string, or a list of strings. -/
inductive PyVal where
  | null
  | str (s : String)
  | listStr (xs : List String)
  deriving DecidableEq, Repr

/-- Python `str()` of a `PyVal`, as an f-string renders it: `None` prints as
the four letters None, a list of strings prints in Python list syntax with
single-quoted items. -/
def pyStr : PyVal → String
  | .null => "None"
  | .str s => s
  | .listStr xs =>
      "[" ++ String.intercalate ", " (xs.map fun x => "\x27" ++ x ++ "\x27") ++ "]"

/-- Python `str()` of an optional string (`f"{self.description}"`). -/
def pyFString : Option String → String
  | Option.none => "None"
  | some s => s

/-- First-match lookup in an association list, i.e. Python `dict[key]` /
`dict.get(key)` for the dictionaries modelled as ordered key-value lists. -/
def alookup {α : Type} : List (String × α) → String → Option α
  | [], _ => Option.none
  | (k, v) :: rest, key => if k = key then some v else alookup rest key

/-- Python `dict.get(key, default)`. -/
def dictGet (md : List (String × PyVal)) (key : String) (dflt : PyVal) : PyVal :=
  (alookup md key).getD dflt

/-- A LangChain `Document`: page content plus a metadata dict (insertion
ordered, as Python dicts are). -/
structure Document where
  page_content : String
  metadata : List (String × PyVal)
  deriving DecidableEq, Repr

/-- `Metadata` from `mechlib/metadata_fetcher.py`.  `__init__` creates
`filename`, `description`, `brand`, `materials`, `mechanism`, `project`,
`person`, `s3_url`, `s3_uri`; the `process` and `timestamp` attributes are
assigned dynamically elsewhere (`process_images`, `extract_metadata_from_imgs`)
and are included here so that claims about them are statable. -/
structure Metadata where
  filename : String
  description : Option String := Option.none
  brand : Option String := Option.none
  materials : List String := []
  process : List String := []
  mechanism : Option String := Option.none
  project : Option String := Option.none
  person : Option String := Option.none
  s3_url : Option String := Option.none
  s3_uri : Option String := Option.none
  timestamp : Option String := Option.none
  deriving DecidableEq, Repr

/-- Embeds an optional string attribute as the dict value it becomes. -/
def optVal : Option String → PyVal
  | Option.none => .null
  | some s => .str s

/-- `Metadata.to_dict` (metadata_fetcher.py lines 40-53): a dict literal with
exactly these keys in this order; `s3_url` and `s3_uri` are the literal
`None`, and there is no `process` or `timestamp` key. -/
def Metadata.to_dict (m : Metadata) : List (String × PyVal) :=
  [("filename", .str m.filename),
   ("description", optVal m.description),
   ("brand", optVal m.brand),
   ("materials", .listStr m.materials),
   ("mechanism", optVal m.mechanism),
   ("project", optVal m.project),
   ("person", optVal m.person),
   ("s3_url", .null),
   ("s3_uri", .null)]

/-- The tag string built in `ImageProcessor.make_documents`: the concatenation
of `f"{key}:{value}, "` over the items of `to_dict()`. -/
def tagString (d : List (String × PyVal)) : String :=
  d.foldl (fun acc kv => acc ++ kv.1 ++ ":" ++ pyStr kv.2 ++ ", ") ""

/-- The canonical text built at document-creation time
(`f"{metadata.description} Tags: [{tag_string}]"`). -/
def pageContentOf (m : Metadata) : String :=
  pyFString m.description ++ " Tags: [" ++ tagString m.to_dict ++ "]"

/-- `ImageProcessor.make_documents` (img_processor.py lines 156-175). -/
def make_documents (ms : List Metadata) : List Document :=
  ms.map fun m => { page_content := pageContentOf m, metadata := m.to_dict }

/-- `ImageProcessor.s3_uris_to_metadata` (img_processor.py lines 142-154):
sets `metadata.s3_uri` when `img_data.get(metadata.filename)` is truthy
(present and a nonempty string). -/
def s3_uris_to_metadata (ms : List Metadata) (img_data : List (String × String)) :
    List Metadata :=
  ms.map fun m =>
    match alookup img_data m.filename with
    | some uri => if uri = "" then m else { m with s3_uri := some uri }
    | Option.none => m

/-- Python comma-join of a value: joins a list of strings; a plain string is
an iterable of its characters; joining `None` raises in Python, modelled as
the empty string (that branch is unreachable on well-formed records). -/
def pyJoinComma : PyVal → String
  | .listStr xs => String.intercalate "," xs
  | .str s => String.intercalate "," (s.data.map fun c => String.singleton c)
  | .null => ""

/-- The `tags` list rebuilt in `update_metadata` (image.py lines 513-521)
from the merged document metadata. -/
def updateTags (md : List (String × PyVal)) : List String :=
  ["filename:" ++ pyStr (dictGet md "filename" (.str "")),
   "brand:" ++ pyStr (dictGet md "brand" (.str "")),
   "materials:" ++ pyJoinComma (dictGet md "materials" (.listStr [])),
   "process:" ++ pyJoinComma (dictGet md "process" (.listStr [])),
   "mechanism:" ++ pyStr (dictGet md "mechanism" (.str "")),
   "project:" ++ pyStr (dictGet md "project" (.str "")),
   "person:" ++ pyStr (dictGet md "person" (.str ""))]

/-- The canonical text rebuilt in the update path (image.py line 522): the
merged description, then ` Tags: [`, then the tags joined by comma-space,
then `]`. -/
def updatePageContent (md : List (String × PyVal)) : String :=
  pyStr (dictGet md "description" (.str "")) ++ " Tags: [" ++
    String.intercalate ", " (updateTags md) ++ "]"

/-- The metadata keys the update-path rebuild reads. -/
def updateTextKeys : List String :=
  ["filename", "description", "brand", "materials", "process", "mechanism",
   "project", "person"]

/-! ### Hybrid search (`VectorStoreManager.hybrid_search`) -/

/-- The filename fetch of the semantic loop followed by the `if filename:`
truthiness test: yields the filename only when it is a nonempty string. -/
def truthyFilename (d : Document) : Option String :=
  match alookup d.metadata "filename" with
  | some (.str s) => if s = "" then Option.none else some s
  | _ => Option.none

/-- Python dict assignment `m[k] = v`: replaces the value in place if the key
exists (keeping its original position), otherwise appends the new pair. -/
def upsert {α : Type} (m : List (String × α)) (k : String) (v : α) :
    List (String × α) :=
  if m.any fun p => p.1 == k then
    m.map fun p => if p.1 == k then (k, v) else p
  else m ++ [(k, v)]

/-- The loop building `semantic_map` (vector_store.py lines 185-189):
`for rank, (doc, distance) in enumerate(semantic_results, start=1)`. -/
def buildSemanticMapAux :
    Nat → List (Document × ℚ) → List (String × Document × Nat × ℚ) →
      List (String × Document × Nat × ℚ)
  | _, [], m => m
  | rank, (doc, dist) :: rest, m =>
      buildSemanticMapAux (rank + 1) rest
        (match truthyFilename doc with
         | some fn => upsert m fn (doc, rank, dist)
         | Option.none => m)

/-- `semantic_map`: filename keyed map of `(doc, semantic_rank, distance)`. -/
def buildSemanticMap (semantic_results : List (Document × ℚ)) :
    List (String × Document × Nat × ℚ) :=
  buildSemanticMapAux 1 semantic_results []

/-- The keyword boost applied to one semantic candidate (vector_store.py
lines 203-210): if the filename occurs in the keyword results at 1-based rank
`r = index + 1`, the distance becomes `max(0, distance - 0.3 * (1 / r))`;
otherwise it is unchanged. -/
def keywordBoost (keyword_filenames : List String) (fn : String) (distance : ℚ) : ℚ :=
  if fn ∈ keyword_filenames then
    let keyword_rank : ℕ := keyword_filenames.indexOf fn + 1
    max 0 (distance - 3/10 * (1 / (keyword_rank : ℚ)))
  else distance

/-- One step of the second loop of `hybrid_search` (vector_store.py lines
215-220): a keyword filename is added only if it is not already present and
occurs in `semantic_map` (in which case it gets the full 0.3 reduction). -/
def kwStep (smap : List (String × Document × Nat × ℚ))
    (acc : List (String × Document × ℚ)) (fn : String) :
    List (String × Document × ℚ) :=
  if acc.any fun p => p.1 == fn then acc
  else
    match alookup smap fn with
    | some (doc, _, dist) => acc ++ [(fn, doc, max 0 (dist - 3/10))]
    | Option.none => acc

/-- `hybrid_scores` just before sorting: every semantic candidate with its
boosted distance, then the (provably redundant) keyword-only pass. -/
def hybridPool (semantic_results : List (Document × ℚ))
    (keyword_filenames : List String) : List (String × Document × ℚ) :=
  let smap := buildSemanticMap semantic_results
  keyword_filenames.foldl (kwStep smap)
    (smap.map fun e => (e.1, e.2.1, keywordBoost keyword_filenames e.1 e.2.2.2))

/-- The comparison used by `sorted(..., key=lambda x: x[1])`. -/
def distLE (a b : Document × ℚ) : Prop := a.2 ≤ b.2

instance : DecidableRel distLE := fun a b => inferInstanceAs (Decidable (a.2 ≤ b.2))

instance : IsTotal (Document × ℚ) distLE := ⟨fun a b => le_total a.2 b.2⟩

instance : IsTrans (Document × ℚ) distLE := ⟨fun _ _ _ hab hbc => le_trans hab hbc⟩

/-- `VectorStoreManager.hybrid_search` (vector_store.py lines 163-228), given
the semantic candidates and keyword filenames the two index queries returned.
The `keyword_weight` parameter is accepted but never read, as in the source. -/
def hybrid_search (semantic_results : List (Document × ℚ))
    (keyword_filenames : List String) (k : Nat) (keyword_weight : ℚ) :
    List (Document × ℚ) :=
  let pool := (hybridPool semantic_results keyword_filenames).map fun p => (p.2.1, p.2.2)
  (pool.insertionSort distLE).take k

/-! ### The search endpoint's threshold filtering (`search_images`) -/

/-- The user-facing message of `search_images`: either the no-match message
carrying the minimum observed distance, or the empty-store message. -/
inductive SearchMessage where
  | closest (minDistance : ℚ)
  | empty
  deriving DecidableEq, Repr

/-- The response fields of `search_images` relevant to filtering. -/
structure SearchOutcome where
  total_count : Nat
  filtered_count : Nat
  results : List (Document × ℚ)
  message : Option SearchMessage
  deriving DecidableEq, Repr

/-- `min(s for _, s in results_with_scores)` (only evaluated on nonempty
input; the `[]` case is junk). -/
def minScore : List (Document × ℚ) → ℚ
  | [] => 0
  | p :: rest => rest.foldl (fun a q => min a q.2) p.2

/-- The threshold-filtering part of `search_images` (image.py lines 331-383),
given the ranked results the search returned. -/
def search_images (results_with_scores : List (Document × ℚ))
    (score_threshold : ℚ) : SearchOutcome :=
  let filtered_results := results_with_scores.filter fun p => decide (p.2 ≤ score_threshold)
  let message : Option SearchMessage :=
    if filtered_results.length = 0 then
      if results_with_scores.length > 0 then some (.closest (minScore results_with_scores))
      else some .empty
    else Option.none
  { total_count := results_with_scores.length
    filtered_count := filtered_results.length
    results := filtered_results
    message := message }

/-! ### Update and delete (`update_metadata`, `delete_image`) -/

/-- Outcome of one ExifTool subprocess invocation: clean exit, nonzero exit
code, or a raised exception. -/
inductive ExifOutcome where
  | ok
  | nonzeroExit
  | exception
  deriving DecidableEq, Repr

/-- The `for metadata in self.metadata_list` loop of
`ImageProcessor.metadata_to_imgs`: a nonzero exit code is only logged and the
file is still appended; an exception propagates to the `except` clause. -/
def runTagWriterLoop : List (String × ExifOutcome) → Option (List String)
  | [] => some []
  | (file, outcome) :: rest =>
      if outcome = .exception then Option.none
      else (runTagWriterLoop rest).map fun fs => file :: fs

/-- `ImageProcessor.metadata_to_imgs` (img_processor.py lines 89-140): the
`except` clause turns any exception into the empty list. -/
def metadata_to_imgs (runs : List (String × ExifOutcome)) : List String :=
  (runTagWriterLoop runs).getD []

/-- A side effect of the update path on the object store or the index. -/
inductive Effect where
  | s3Download
  | s3Upload
  | indexDelete
  | indexAdd
  deriving DecidableEq, Repr

/-- How `update_metadata` terminates. -/
inductive UpdateOutcome where
  | notFound
  | exifFailure
  | success
  deriving DecidableEq, Repr

/-- `update_metadata` (image.py lines 395-561) as a function of the two
external outcomes it branches on: the `s3_uri` lookup result (`None` raises
404 inside `get_document_by_s3_uri`) and the ExifTool outcome on the scratch
copy.  The returned list records the store/index writes attempted, in
order. -/
def update_metadata (lookupResult : Option (String × Document))
    (exif : ExifOutcome) : UpdateOutcome × List Effect :=
  match lookupResult with
  | Option.none => (.notFound, [])
  | some _ =>
      let updated_files := metadata_to_imgs [("scratch", exif)]
      if updated_files = [] then (.exifFailure, [.s3Download])
      else (.success, [.s3Download, .s3Upload, .indexDelete, .indexAdd])

/-- The two independent booleans of `DeleteImageResponse`. -/
structure DeleteImageResponse where
  deleted_from_s3 : Bool
  deleted_from_vector_db : Bool
  deriving DecidableEq, Repr

/-- The index-deletion flag: `deleted_count > 0` on a completed SQL delete,
`False` when the delete raised. -/
def dbDeleted : Option Nat → Bool
  | some n => decide (0 < n)
  | Option.none => false

/-- `delete_image` (image.py lines 564-638) as a function of the object-store
outcome (`False` = the delete raised) and the SQL delete outcome (`none` =
raised, `some n` = deleted row count).  `Except.error` models the HTTP 500
raised when both deletions failed. -/
def delete_image (s3DeleteOk : Bool) (dbDeleteResult : Option Nat) :
    Except String DeleteImageResponse :=
  let deleted_from_s3 := s3DeleteOk
  let deleted_from_vector_db := dbDeleted dbDeleteResult
  if !deleted_from_s3 && !deleted_from_vector_db then
    .error "Failed to delete image from both S3 and vector database"
  else
    .ok { deleted_from_s3 := deleted_from_s3
          deleted_from_vector_db := deleted_from_vector_db }

/-! ### Concrete scenario data (spec §8, Scenarios A and B) -/

def docA : Document := { page_content := "", metadata := [("filename", .str "A")] }

def docB : Document := { page_content := "", metadata := [("filename", .str "B")] }

def docC : Document := { page_content := "", metadata := [("filename", .str "C")] }

/-- Scenario A semantic candidates `[(A,0.4),(B,0.6),(C,0.8)]`. -/
def scenarioSemantic : List (Document × ℚ) := [(docA, 2/5), (docB, 3/5), (docC, 4/5)]

/-- Scenario A keyword ranking `[B, A]`. -/
def scenarioKeyword : List String := ["B", "A"]

/-! ### Helper lemmas -/

/-- `to_dict` always stores the literal `None` under `s3_uri`. -/
theorem to_dict_s3_uri (m : Metadata) : alookup m.to_dict "s3_uri" = some PyVal.null := by
  simp [Metadata.to_dict, alookup]

/-- `to_dict` always stores the literal `None` under `s3_url`. -/
theorem to_dict_s3_url (m : Metadata) : alookup m.to_dict "s3_url" = some PyVal.null := by
  simp [Metadata.to_dict, alookup]

/-- `to_dict` has no `process` key. -/
theorem to_dict_no_process (m : Metadata) : alookup m.to_dict "process" = Option.none := by
  simp [Metadata.to_dict, alookup]

/-- `to_dict` has no `timestamp` key. -/
theorem to_dict_no_timestamp (m : Metadata) :
    alookup m.to_dict "timestamp" = Option.none := by
  simp [Metadata.to_dict, alookup]

/-- A successful `alookup` exhibits a member of the list. -/
theorem alookup_mem {α : Type} {m : List (String × α)} {k : String} {v : α}
    (h : alookup m k = some v) : (k, v) ∈ m := by
  induction m with
  | nil => simp [alookup] at h
  | cons p rest ih =>
      obtain ⟨k2, v2⟩ := p
      by_cases hk : k2 = k
      · rw [alookup, if_pos hk] at h
        obtain rfl := Option.some.inj h
        subst hk
        exact List.mem_cons_self _ _
      · rw [alookup, if_neg hk] at h
        exact List.mem_cons_of_mem _ (ih h)

/-- `alookup` only looks at the left part when it succeeds there. -/
theorem alookup_append_left {α : Type} {m l : List (String × α)} {k : String} {v : α}
    (h : alookup m k = some v) : alookup (m ++ l) k = some v := by
  induction m with
  | nil => simp [alookup] at h
  | cons p rest ih =>
      obtain ⟨k2, v2⟩ := p
      by_cases hk : k2 = k
      · rw [alookup, if_pos hk] at h
        rw [List.cons_append, alookup, if_pos hk]
        exact h
      · rw [alookup, if_neg hk] at h
        rw [List.cons_append, alookup, if_neg hk]
        exact ih h

/-- On a list with pairwise-distinct keys, membership determines `alookup`. -/
theorem alookup_of_mem_nodup {α : Type} {m : List (String × α)} {k : String} {v : α}
    (hnd : m.Pairwise fun p q => p.1 ≠ q.1) (hmem : (k, v) ∈ m) :
    alookup m k = some v := by
  induction m with
  | nil => cases hmem
  | cons p rest ih =>
      obtain ⟨k2, v2⟩ := p
      rcases List.mem_cons.1 hmem with heq | htail
      · cases heq
        rw [alookup, if_pos rfl]
      · have hk : k2 ≠ k := by
          have h2 := (List.pairwise_cons.1 hnd).1 (k, v) htail
          simpa using h2
        rw [alookup, if_neg hk]
        exact ih (List.pairwise_cons.1 hnd).2 htail

/-- Everything in `upsert m k v` is an old entry or the new pair. -/
theorem mem_upsert {α : Type} {m : List (String × α)} {k : String} {v : α}
    {x : String × α} (h : x ∈ upsert m k v) : x ∈ m ∨ x = (k, v) := by
  unfold upsert at h
  split at h
  · rcases List.mem_map.1 h with ⟨p, hp, hpx⟩
    split at hpx
    · exact Or.inr hpx.symm
    · rw [← hpx]; exact Or.inl hp
  · rcases List.mem_append.1 h with h1 | h1
    · exact Or.inl h1
    · right; simpa using h1

/-- `upsert` preserves pairwise-distinct keys. -/
theorem upsert_keys_pairwise {α : Type} {m : List (String × α)} {k : String} {v : α}
    (h : m.Pairwise fun p q => p.1 ≠ q.1) :
    (upsert m k v).Pairwise fun p q => p.1 ≠ q.1 := by
  unfold upsert
  split
  · next hany =>
      rw [List.pairwise_map]
      have hkey : ∀ p : String × α,
          ((if p.1 == k then (k, v) else p) : String × α).1 = p.1 := by
        intro p
        split
        · next hh => exact (eq_of_beq hh).symm
        · rfl
      refine h.imp fun {a b} hab => ?_
      rw [hkey a, hkey b]
      exact hab
  · next hany =>
      rw [List.pairwise_append]
      refine ⟨h, by simp, ?_⟩
      intro a ha b hb hak
      rcases List.mem_singleton.1 hb with rfl
      apply hany
      exact List.any_eq_true.2 ⟨a, ha, by simp [hak]⟩

/-- The semantic-map loop preserves pairwise-distinct keys. -/
theorem buildSemanticMapAux_keys_pairwise (sem : List (Document × ℚ)) :
    ∀ (rank : Nat) (m : List (String × Document × Nat × ℚ)),
      (m.Pairwise fun p q => p.1 ≠ q.1) →
      (buildSemanticMapAux rank sem m).Pairwise fun p q => p.1 ≠ q.1 := by
  induction sem with
  | nil => intro rank m h; exact h
  | cons hd rest ih =>
      intro rank m h
      obtain ⟨doc, dist⟩ := hd
      rw [buildSemanticMapAux]
      cases htf : truthyFilename doc with
      | none => exact ih _ _ h
      | some fn => exact ih _ _ (upsert_keys_pairwise h)

/-- `semantic_map` has pairwise-distinct filename keys. -/
theorem buildSemanticMap_keys_pairwise (sem : List (Document × ℚ)) :
    (buildSemanticMap sem).Pairwise fun p q => p.1 ≠ q.1 :=
  buildSemanticMapAux_keys_pairwise sem 1 [] (by simp)

/-- Every entry of the semantic map records a semantic candidate: its
document and distance occur in `semantic_results`. -/
theorem mem_buildSemanticMapAux {sem : List (Document × ℚ)} :
    ∀ {rank : Nat} {m : List (String × Document × Nat × ℚ)}
      {x : String × Document × Nat × ℚ},
      x ∈ buildSemanticMapAux rank sem m → x ∈ m ∨ (x.2.1, x.2.2.2) ∈ sem := by
  induction sem with
  | nil => intro rank m x h; exact Or.inl h
  | cons hd rest ih =>
      intro rank m x h
      obtain ⟨doc, dist⟩ := hd
      rw [buildSemanticMapAux] at h
      cases htf : truthyFilename doc with
      | none =>
          rw [htf] at h
          rcases ih h with h1 | h1
          · exact Or.inl h1
          · exact Or.inr (List.mem_cons_of_mem _ h1)
      | some fn =>
          rw [htf] at h
          rcases ih h with h1 | h1
          · rcases mem_upsert h1 with h2 | h2
            · exact Or.inl h2
            · right; rw [h2]; exact List.mem_cons_self _ _
          · exact Or.inr (List.mem_cons_of_mem _ h1)

/-- Specialization of `mem_buildSemanticMapAux` to the initial empty map. -/
theorem mem_buildSemanticMap {sem : List (Document × ℚ)}
    {x : String × Document × Nat × ℚ} (h : x ∈ buildSemanticMap sem) :
    (x.2.1, x.2.2.2) ∈ sem :=
  (mem_buildSemanticMapAux h).resolve_left (by simp)

/-- One keyword-loop step never drops entries. -/
theorem subset_kwStep (smap : List (String × Document × Nat × ℚ))
    (acc : List (String × Document × ℚ)) (fn : String) :
    acc ⊆ kwStep smap acc fn := by
  intro x hx
  unfold kwStep
  split
  · exact hx
  · cases halo : alookup smap fn with
    | none => exact hx
    | some p =>
        obtain ⟨doc, rank, dist⟩ := p
        exact List.mem_append_left _ hx

/-- One keyword-loop step preserves successful lookups. -/
theorem alookup_kwStep {smap : List (String × Document × Nat × ℚ)}
    {acc : List (String × Document × ℚ)} {fn k : String} {v : Document × ℚ}
    (h : alookup acc k = some v) : alookup (kwStep smap acc fn) k = some v := by
  unfold kwStep
  split
  · exact h
  · cases halo : alookup smap fn with
    | none => exact h
    | some p =>
        obtain ⟨doc, rank, dist⟩ := p
        exact alookup_append_left h

/-- The whole keyword loop preserves successful lookups. -/
theorem alookup_foldl_kwStep {smap : List (String × Document × Nat × ℚ)}
    (kw : List String) :
    ∀ {acc : List (String × Document × ℚ)} {k : String} {v : Document × ℚ},
      alookup acc k = some v → alookup (kw.foldl (kwStep smap) acc) k = some v := by
  induction kw with
  | nil => intro acc k v h; exact h
  | cons f rest ih => intro acc k v h; exact ih (alookup_kwStep h)

/-- Everything the keyword loop produces is an initial entry or derived from
a semantic-map lookup with the 0.3 reduction. -/
theorem mem_foldl_kwStep {smap : List (String × Document × Nat × ℚ)}
    (kw : List String) :
    ∀ {acc : List (String × Document × ℚ)} {x : String × Document × ℚ},
      x ∈ kw.foldl (kwStep smap) acc →
      x ∈ acc ∨ ∃ fn doc rank dist, alookup smap fn = some (doc, rank, dist) ∧
        x = (fn, doc, max 0 (dist - 3/10)) := by
  induction kw with
  | nil => intro acc x h; exact Or.inl h
  | cons f rest ih =>
      intro acc x h
      rcases ih h with h1 | h1
      · revert h1
        unfold kwStep
        split
        · exact fun h1 => Or.inl h1
        · cases halo : alookup smap f with
          | none => exact fun h1 => Or.inl h1
          | some p =>
              obtain ⟨doc, rank, dist⟩ := p
              intro h1
              rcases List.mem_append.1 h1 with h2 | h2
              · exact Or.inl h2
              · right
                exact ⟨f, doc, rank, dist, halo, by simpa using h2⟩
      · exact Or.inr h1

/-- Looking up a semantic-map entry's filename in the first (boosting) pass
of `hybrid_search` yields its boosted distance. -/
theorem alookup_boost_base {sem : List (Document × ℚ)} {kw : List String}
    {fn : String} {doc : Document} {rank : Nat} {dist : ℚ}
    (h : (fn, doc, rank, dist) ∈ buildSemanticMap sem) :
    alookup ((buildSemanticMap sem).map fun e =>
        (e.1, e.2.1, keywordBoost kw e.1 e.2.2.2)) fn =
      some (doc, keywordBoost kw fn dist) := by
  apply alookup_of_mem_nodup
  · rw [List.pairwise_map]
    exact (buildSemanticMap_keys_pairwise sem).imp fun {a b} hab => hab
  · exact List.mem_map_of_mem _ h

/-- The adjusted distance recorded in `hybrid_scores` for a semantic
candidate is exactly its keyword-boosted distance. -/
theorem alookup_hybridPool {sem : List (Document × ℚ)} {kw : List String}
    {fn : String} {doc : Document} {rank : Nat} {dist : ℚ}
    (h : (fn, doc, rank, dist) ∈ buildSemanticMap sem) :
    alookup (hybridPool sem kw) fn = some (doc, keywordBoost kw fn dist) := by
  unfold hybridPool
  exact alookup_foldl_kwStep kw (alookup_boost_base h)

/-- Every `hybrid_scores` entry carries a document/distance pair that occurs
among the semantic candidates. -/
theorem mem_hybridPool_source {sem : List (Document × ℚ)} {kw : List String}
    {x : String × Document × ℚ} (hx : x ∈ hybridPool sem kw) :
    ∃ q ∈ sem, q.1 = x.2.1 := by
  unfold hybridPool at hx
  rcases mem_foldl_kwStep kw hx with h1 | h1
  · rcases List.mem_map.1 h1 with ⟨e, he, hex⟩
    exact ⟨(e.2.1, e.2.2.2), mem_buildSemanticMap he, by rw [← hex]⟩
  · rcases h1 with ⟨fn, doc, rank, dist, halo, hx2⟩
    exact ⟨(doc, dist), mem_buildSemanticMap (alookup_mem halo), by rw [hx2]⟩

/-! ### The claims -/

/-- Claim C5: an update request whose `s3_uri` matches no record fails with
NotFound (HTTP 404), and no object-store or index write is attempted: the
effect trace is empty whatever the tag-writer would have done. -/
theorem update_notfound_no_side_effects (exif : ExifOutcome) :
    update_metadata Option.none exif = (UpdateOutcome.notFound, []) := rfl

/-- Claim C4 (code bug witness): when the ExifTool invocation on the scratch
copy reports failure through a nonzero exit code, `metadata_to_imgs` still
returns the file, so `update_metadata` re-uploads the scratch copy and
mutates the index, reporting success — contradicting the spec's "fail the
whole operation if the writer reports failure". -/
theorem update_reuploads_despite_tagwriter_failure :
    metadata_to_imgs [("scratch", ExifOutcome.nonzeroExit)] = ["scratch"] ∧
      update_metadata (some ("id0", docA)) ExifOutcome.nonzeroExit =
        (UpdateOutcome.success,
          [Effect.s3Download, Effect.s3Upload, Effect.indexDelete, Effect.indexAdd]) ∧
      update_metadata (some ("id0", docA)) ExifOutcome.exception =
        (UpdateOutcome.exifFailure, [Effect.s3Download]) :=
  ⟨rfl, rfl, rfl⟩

/-- Claim C6: the two deletions are reported as independent booleans and the
operation errors exactly when both fail; in Scenario D (object-store delete
fails, index delete succeeds) the response booleans are (false, true) with
overall success. -/
theorem delete_independent_booleans (s3DeleteOk : Bool) (dbDeleteResult : Option Nat) :
    (delete_image s3DeleteOk dbDeleteResult =
        if s3DeleteOk = false ∧ dbDeleted dbDeleteResult = false then
          Except.error "Failed to delete image from both S3 and vector database"
        else Except.ok ⟨s3DeleteOk, dbDeleted dbDeleteResult⟩) ∧
      ((∃ msg, delete_image s3DeleteOk dbDeleteResult = Except.error msg) ↔
        s3DeleteOk = false ∧ dbDeleted dbDeleteResult = false) ∧
      delete_image false (some 1) = Except.ok ⟨false, true⟩ := by
  refine ⟨?_, ?_, rfl⟩ <;>
    cases s3DeleteOk <;> cases h : dbDeleted dbDeleteResult <;>
      simp [delete_image, h]

/-- Claim C8: the `keyword_weight` accepted by the search contract does not
influence the hybrid result: any two weights yield identical output. -/
theorem keyword_weight_unused (semantic_results : List (Document × ℚ))
    (keyword_filenames : List String) (k : Nat) (w1 w2 : ℚ) :
    hybrid_search semantic_results keyword_filenames k w1 =
      hybrid_search semantic_results keyword_filenames k w2 := rfl

/-- Claim C10: whatever was assigned to a `Metadata` object, `to_dict()`
returns `None` under both `s3_uri` and `s3_url` and has no `process` or
`timestamp` key; consequently every document the create workflow builds after
`s3_uris_to_metadata` is indexed with `s3_uri = None` in its metadata. -/
theorem to_dict_constant_fields (m : Metadata) (ms : List Metadata)
    (img_data : List (String × String)) :
    alookup m.to_dict "s3_uri" = some PyVal.null ∧
      alookup m.to_dict "s3_url" = some PyVal.null ∧
      alookup m.to_dict "process" = Option.none ∧
      alookup m.to_dict "timestamp" = Option.none ∧
      (make_documents (s3_uris_to_metadata ms img_data)).map
          (fun d => alookup d.metadata "s3_uri") =
        ms.map fun _ => some PyVal.null := by
  refine ⟨to_dict_s3_uri m, to_dict_s3_url m, to_dict_no_process m,
    to_dict_no_timestamp m, ?_⟩
  simp only [make_documents, s3_uris_to_metadata, List.map_map]
  refine List.map_congr_left fun x _ => ?_
  simp only [Function.comp]
  cases halo : alookup img_data x.filename with
  | none => exact to_dict_s3_uri x
  | some uri =>
      by_cases he : uri = "" <;> simp [he, to_dict_s3_uri]

/-- Claim C9: the canonical-text builder is deterministic at both build
sites.  At document creation, the text depends only on the structured field
values (two `Metadata` objects agreeing on `filename`, `description`,
`brand`, `materials`, `mechanism`, `project`, `person` produce byte-identical
text, whatever their other attributes hold); in the update path's rebuild the
text depends only on the metadata entries at the keys it reads. -/
theorem canonical_text_deterministic :
    (∀ m1 m2 : Metadata, m1.filename = m2.filename →
      m1.description = m2.description → m1.brand = m2.brand →
      m1.materials = m2.materials → m1.mechanism = m2.mechanism →
      m1.project = m2.project → m1.person = m2.person →
      pageContentOf m1 = pageContentOf m2) ∧
    (∀ md1 md2 : List (String × PyVal),
      (∀ key ∈ updateTextKeys, alookup md1 key = alookup md2 key) →
      updatePageContent md1 = updatePageContent md2) := by
  constructor
  · intro m1 m2 h1 h2 h3 h4 h5 h6 h7
    simp [pageContentOf, Metadata.to_dict, h1, h2, h3, h4, h5, h6, h7]
  · intro md1 md2 h
    have e1 := h "filename" (by simp [updateTextKeys])
    have e2 := h "description" (by simp [updateTextKeys])
    have e3 := h "brand" (by simp [updateTextKeys])
    have e4 := h "materials" (by simp [updateTextKeys])
    have e5 := h "process" (by simp [updateTextKeys])
    have e6 := h "mechanism" (by simp [updateTextKeys])
    have e7 := h "project" (by simp [updateTextKeys])
    have e8 := h "person" (by simp [updateTextKeys])
    simp [updatePageContent, updateTags, dictGet, e1, e2, e3, e4, e5, e6, e7, e8]

/-- Witness for C9 at concrete inputs: the creation-path texts of two records
that differ only in `process`, `timestamp` and `s3_uri` coincide, and the
update-path texts of two dicts that differ only in a key outside the read set
coincide. -/
theorem canonical_text_deterministic_witness :
    pageContentOf
        { filename := "f.png", description := some "a switch", brand := some "b",
          materials := ["steel"], process := ["cnc"], s3_uri := some "s3://x/f.png" } =
      pageContentOf
        { filename := "f.png", description := some "a switch", brand := some "b",
          materials := ["steel"], process := ["molding"], timestamp := some "t" } ∧
    updatePageContent [("filename", .str "f.png"), ("brand", .str "b")] =
      updatePageContent
        [("filename", .str "f.png"), ("brand", .str "b"), ("s3_uri", .str "s3://x/f.png")] :=
  ⟨canonical_text_deterministic.1 _ _ rfl rfl rfl rfl rfl rfl rfl,
   canonical_text_deterministic.2 _ _ (by decide)⟩

/-- The pre-sort pool of Scenario A, with symbolic boosts. -/
theorem scenario_pool :
    (hybridPool scenarioSemantic scenarioKeyword).map (fun p => (p.2.1, p.2.2)) =
      [(docA, keywordBoost scenarioKeyword "A" (2/5)),
       (docB, keywordBoost scenarioKeyword "B" (3/5)),
       (docC, keywordBoost scenarioKeyword "C" (4/5))] := rfl

/-- Scenario A boost of A: keyword rank 2, `0.4 - 0.3/2 = 0.25`. -/
theorem scenario_boost_A : keywordBoost scenarioKeyword "A" (2/5) = 1/4 := by
  have hidx : List.indexOf "A" (["B", "A"] : List String) = 1 := rfl
  norm_num [keywordBoost, scenarioKeyword, hidx]

/-- Scenario A boost of B: keyword rank 1, `0.6 - 0.3 = 0.3`. -/
theorem scenario_boost_B : keywordBoost scenarioKeyword "B" (3/5) = 3/10 := by
  have hidx : List.indexOf "B" (["B", "A"] : List String) = 0 := rfl
  norm_num [keywordBoost, scenarioKeyword, hidx]

/-- Scenario A boost of C: no keyword match, distance kept. -/
theorem scenario_boost_C : keywordBoost scenarioKeyword "C" (4/5) = 4/5 := by
  have hmem : ("C" : String) ∉ (["B", "A"] : List String) := by decide
  simp [keywordBoost, scenarioKeyword, hmem]

/-- Scenario A end-to-end output of `hybrid_search`. -/
theorem scenario_hybrid_output :
    hybrid_search scenarioSemantic scenarioKeyword 10 (1/2) =
      [(docA, 1/4), (docB, 3/10), (docC, 4/5)] := by
  show (((hybridPool scenarioSemantic scenarioKeyword).map
      fun p => (p.2.1, p.2.2)).insertionSort distLE).take 10 = _
  rw [scenario_pool, scenario_boost_A, scenario_boost_B, scenario_boost_C]
  have hsorted : List.Sorted distLE [(docA, (1:ℚ)/4), (docB, 3/10), (docC, 4/5)] := by
    norm_num [List.sorted_cons, distLE]
  rw [List.Sorted.insertionSort_eq hsorted]
  rfl

/-- Claim C1: a semantic candidate found in the keyword list at 1-based rank
`r` gets adjusted distance `max(0, distance - 0.3/r)`, and one absent from
the keyword list keeps its raw distance — stated as: looking up each
semantic-map entry's filename in `hybrid_scores` yields exactly that value.
In particular Scenario A yields A=0.25, B=0.3, C=0.8 in that order. -/
theorem hybrid_boost_formula :
    (∀ (sem : List (Document × ℚ)) (kw : List String),
      (buildSemanticMap sem).map (fun e => alookup (hybridPool sem kw) e.1) =
        (buildSemanticMap sem).map fun e =>
          some (e.2.1,
            if e.1 ∈ kw then
              max 0 (e.2.2.2 - (3/10) / ((List.indexOf e.1 kw + 1 : ℕ) : ℚ))
            else e.2.2.2)) ∧
      hybrid_search scenarioSemantic scenarioKeyword 10 (1/2) =
        [(docA, 1/4), (docB, 3/10), (docC, 4/5)] := by
  refine ⟨?_, scenario_hybrid_output⟩
  intro sem kw
  refine List.map_congr_left fun e he => ?_
  obtain ⟨fn, doc, rank, dist⟩ := e
  rw [alookup_hybridPool he]
  simp only [keywordBoost]
  split
  · rw [mul_one_div]
  · rfl

/-- Claim C2: for every input, the hybrid-search output is sorted by adjusted
distance ascending (each adjacent pair satisfies `adjusted[i] <=
adjusted[i+1]`) and has at most `k` elements. -/
theorem hybrid_sorted_le_k (sem : List (Document × ℚ)) (kw : List String)
    (k : Nat) (w : ℚ) :
    List.Chain' (fun a b : Document × ℚ => a.2 ≤ b.2) (hybrid_search sem kw k w) ∧
      (hybrid_search sem kw k w).length ≤ k := by
  constructor
  · have hs : List.Sorted distLE
        (((hybridPool sem kw).map fun p => (p.2.1, p.2.2)).insertionSort distLE) :=
      List.sorted_insertionSort distLE _
    have ht : List.Pairwise distLE (hybrid_search sem kw k w) :=
      List.Pairwise.sublist (List.take_sublist k _) hs
    exact ht.chain'
  · exact List.length_take_le k _

/-- Claim C3: every record in the fused output comes from the semantic
candidate pool — a keyword-only candidate never appears. -/
theorem hybrid_output_subset_semantic (sem : List (Document × ℚ))
    (kw : List String) (k : Nat) (w : ℚ) :
    ((hybrid_search sem kw k w).all fun p =>
      sem.any fun q => decide (q.1 = p.1)) = true := by
  rw [List.all_eq_true]
  intro p hp
  rw [List.any_eq_true]
  have h1 : p ∈ ((hybridPool sem kw).map fun x => (x.2.1, x.2.2)) :=
    (List.mem_insertionSort distLE).1 (List.mem_of_mem_take hp)
  rcases List.mem_map.1 h1 with ⟨x, hx, hpx⟩
  rcases mem_hybridPool_source hx with ⟨q, hq, hq1⟩
  refine ⟨q, hq, ?_⟩
  rw [decide_eq_true_eq, hq1, ← hpx]

/-- Claim C7: the caller keeps exactly the results whose adjusted distance is
at most `score_threshold`; `filtered_count` counts them and `total_count` is
the unfiltered size; the message carries the minimum observed distance
exactly when candidates exist but none pass, and is omitted when at least
one passes.  Scenario B: threshold 0.5 keeps `[A, B]` with no message. -/
theorem search_threshold_filtering (results : List (Document × ℚ)) (thr : ℚ) :
    (search_images results thr).total_count = results.length ∧
      (search_images results thr).filtered_count =
        (results.filter fun p => decide (p.2 ≤ thr)).length ∧
      (search_images results thr).results =
        (results.filter fun p => decide (p.2 ≤ thr)) ∧
      (search_images results thr).message =
        (if (results.filter fun p => decide (p.2 ≤ thr)) = [] then
           if results = [] then some SearchMessage.empty
           else some (SearchMessage.closest (minScore results))
         else Option.none) ∧
      search_images [(docA, 1/4), (docB, 3/10), (docC, 4/5)] (1/2) =
        { total_count := 3, filtered_count := 2,
          results := [(docA, 1/4), (docB, 3/10)], message := Option.none } := by
  refine ⟨rfl, rfl, rfl, ?_, ?_⟩
  · by_cases hf : (results.filter fun p => decide (p.2 ≤ thr)) = [] <;>
      by_cases hr : results = [] <;>
        simp [search_images, hf, hr, List.length_eq_zero, gt_iff_lt,
          List.length_pos]
  · norm_num [search_images, List.filter, minScore]

end Mechlib
